import Mathlib

/-
  Verification of the FW admin API gateway (Express/TypeScript) against its
  natural-language specification.  The definitions below are a shallow
  embedding of the gateway source: strings are Lean strings, JS string
  operations are re-implemented over `List Char`, header values and fetch
  outcomes are explicit inductive types, and each middleware / handler is a
  pure Lean function mirroring the source control flow.
-/

namespace FwGateway

/-! ## JS string primitives used by the gateway source -/

/-- Embedding of JavaScript `String.prototype.trim`: remove leading and
trailing whitespace characters from a character list. -/
def jsTrimChars (l : List Char) : List Char :=
  ((l.dropWhile Char.isWhitespace).reverse.dropWhile Char.isWhitespace).reverse

/-- Embedding of JavaScript `String.prototype.trim` on strings. -/
def jsTrim (s : String) : String := String.mk (jsTrimChars s.data)

/-- Embedding of JavaScript `str.split(",")` over character lists: split at
every comma; the empty input yields one empty piece, like in JS. -/
def splitOnComma : List Char → List (List Char)
  | [] => [[]]
  | c :: rest =>
    if c = ',' then [] :: splitOnComma rest
    else
      match splitOnComma rest with
      | [] => [[c]]
      | p :: ps => (c :: p) :: ps

/-! ## API key list parsing (src/services/api-gateway/src/config.ts, apiKeysSchema) -/

/-- Embedding of the transform in `apiKeysSchema`:
`val.split(",").map((key) => key.trim()).filter((key) => key.length > 0)`. -/
def parseApiKeys (val : String) : List String :=
  ((splitOnComma val.data).map (fun p => String.mk (jsTrimChars p))).filter
    (fun k => decide (0 < k.length))

/-! ## API key guard (src/services/api-gateway/src/middleware/apiKey.ts) -/

/-- JS string length: the number of UTF-16 code units (characters above
U+FFFF count twice). -/
def jsLength (s : String) : Nat :=
  (s.data.map (fun c => if c.toNat < 65536 then 1 else 2)).sum

/-- The number of bytes one character occupies in UTF-8. -/
def utf8Len (c : Char) : Nat :=
  if c.toNat < 128 then 1
  else if c.toNat < 2048 then 2
  else if c.toNat < 65536 then 3
  else 4

/-- The byte length of `Buffer.from(s)` (UTF-8 encoding). -/
def utf8ByteLength (s : String) : Nat := (s.data.map utf8Len).sum

/-- Result of `timingSafeCompare`: a boolean, or the
ERR_CRYPTO_TIMING_SAFE_EQUAL_LENGTH exception thrown by
`crypto.timingSafeEqual`. -/
inductive CompareResult where
  | ok (b : Bool)
  | thrown
deriving DecidableEq, Repr

/-- Embedding of `timingSafeCompare`: differing JS (UTF-16) lengths return
false after a harmless dummy self-comparison; equal JS lengths reach
`crypto.timingSafeEqual` on the two UTF-8 buffers, which throws when their
byte lengths differ and otherwise decides byte equality — which, for
equal-byte-length buffers, holds exactly when the strings are equal (UTF-8
encoding is injective). -/
def timingSafeCompare (a b : String) : CompareResult :=
  if jsLength a != jsLength b then .ok false
  else if utf8ByteLength a != utf8ByteLength b then .thrown
  else .ok (a.data == b.data)

/-- The throwing condition of `timingSafeCompare`: equal JS length, different
UTF-8 byte length (only possible when one side is non-ASCII). -/
def compareThrows (a b : String) : Bool :=
  jsLength a == jsLength b && utf8ByteLength a != utf8ByteLength b

/-- Embedding of `isValidApiKey`: `Array.prototype.some` scans the
configured keys in order; a key that compares equal stops the scan with
true, and an exception from `timingSafeCompare` propagates out of the
scan. -/
def isValidApiKey (apiKeys : List String) (providedKey : String) :
    Except Unit Bool :=
  match apiKeys with
  | [] => .ok false
  | k :: rest =>
    match timingSafeCompare providedKey k with
    | .thrown => .error ()
    | .ok true => .ok true
    | .ok false => isValidApiKey rest providedKey

/-- The value of `req.headers["x-fw-admin-key"]` as Express exposes it:
absent, a single string, or an array when the header was sent repeatedly. -/
inductive HeaderVal where
  | absent
  | single (v : String)
  | multi (vs : List String)
deriving DecidableEq, Repr

/-- Outcome of a guard middleware: pass control to `next`, answer with an
HTTP status and a JSON body (a list of key/value pairs, in source order), or
throw — Express forwards a synchronous middleware exception to the terminal
error handler, which answers 500 INTERNAL_ERROR for this plain Error. -/
inductive GuardOutcome where
  | next
  | reject (status : Nat) (body : List (String × String))
  | thrown
deriving DecidableEq, Repr

/-- Body sent by `apiKeyGuard` for a missing key. -/
def missingKeyBody : List (String × String) :=
  [("status", "error"), ("code", "MISSING_API_KEY"),
   ("message", "API key is required in x-fw-admin-key header")]

/-- Body sent by `apiKeyGuard` for an invalid key. -/
def invalidKeyBody : List (String × String) :=
  [("status", "error"), ("code", "INVALID_API_KEY"), ("message", "Invalid API key")]

/-- Embedding of `apiKeyGuard`: `!key || Array.isArray(key)` (absent, empty
string, or repeated header) means missing; otherwise the key is checked
against every configured key, and an exception from `isValidApiKey`
propagates out of the middleware. -/
def apiKeyGuard (apiKeys : List String) (key : HeaderVal) : GuardOutcome :=
  match key with
  | .absent => .reject 401 missingKeyBody
  | .multi _ => .reject 401 missingKeyBody
  | .single v =>
    if v = "" then .reject 401 missingKeyBody
    else
      match isValidApiKey apiKeys v with
      | .error _ => .thrown
      | .ok true => .next
      | .ok false => .reject 401 invalidKeyBody

/-- Modelled from the spec: the standard header trimming performed by the
HTTP layer before the guard sees a value (the spec speaks of an
"empty/whitespace-only value (after standard header trimming)"); Node strips
leading and trailing whitespace from header field values, so a
whitespace-only header reaches the guard as the empty string. -/
def receivedHeader (raw : HeaderVal) : HeaderVal :=
  match raw with
  | .single v => .single (jsTrim v)
  | h => h

/-! ## Terminal error handler
(src/services/api-gateway/src/middleware/errorHandler.ts) -/

/-- The error object reaching the terminal handler, classified the way the
source classifies it: an `ApiError` instance (statusCode, code, message), a
`SyntaxError` (with or without the `body` property the body parser attaches),
or any other error (with its message and possibly a stack). -/
inductive GatewayError where
  | apiError (statusCode : Nat) (code : String) (msg : String)
  | jsonSyntaxError (msg : String) (hasBody : Bool)
  | other (msg : String) (stack : Option String)
deriving DecidableEq, Repr

/-- The INTERNAL_ERROR body: a fixed generic message in production, the
original error message otherwise. -/
def internalErrorBody (isProduction : Bool) (msg : String) : List (String × String) :=
  [("status", "error"), ("code", "INTERNAL_ERROR"),
   ("message", if isProduction then "An internal error occurred" else msg)]

/-- Embedding of `errorHandler`: ApiError instances are echoed verbatim,
SyntaxError with a `body` property becomes 400 INVALID_JSON, and everything
else becomes 500 INTERNAL_ERROR; the stack is only logged, never placed in
the response body. -/
def errorHandler (isProduction : Bool) (err : GatewayError) :
    Nat × List (String × String) :=
  match err with
  | .apiError sc code msg =>
    (sc, [("status", "error"), ("code", code), ("message", msg)])
  | .jsonSyntaxError msg hasBody =>
    if hasBody then
      (400, [("status", "error"), ("code", "INVALID_JSON"),
             ("message", "Invalid JSON in request body")])
    else (500, internalErrorBody isProduction msg)
  | .other msg _ => (500, internalErrorBody isProduction msg)

/-! ## Basic lemmas about the guard primitives -/

lemma timingSafeCompare_self (a : String) : timingSafeCompare a a = .ok true := by
  simp [timingSafeCompare]

lemma timingSafeCompare_ok_true_iff (a b : String) :
    timingSafeCompare a b = .ok true ↔ a = b := by
  constructor
  · intro h
    unfold timingSafeCompare at h
    split at h
    · simp at h
    · split at h
      · simp at h
      · simp at h
        cases a; cases b; exact congrArg String.mk h
  · intro h
    subst h
    exact timingSafeCompare_self a

lemma timingSafeCompare_thrown_iff (a b : String) :
    timingSafeCompare a b = .thrown ↔ compareThrows a b = true := by
  by_cases h1 : jsLength a = jsLength b
  · by_cases h2 : utf8ByteLength a = utf8ByteLength b
    · simp [timingSafeCompare, compareThrows, h1, h2]
    · simp [timingSafeCompare, compareThrows, h1, h2]
  · simp [timingSafeCompare, compareThrows, h1]

lemma parseApiKeys_mem_ne_empty {s k : String} (h : k ∈ parseApiKeys s) :
    k ≠ "" := by
  have h2 := List.mem_filter.mp h
  have h3 := of_decide_eq_true h2.2
  intro he
  rw [he] at h3
  exact absurd h3 (by decide)

lemma isValidApiKey_mem {keys : List String} {k : String} (hk : k ∈ keys)
    (hnt : ∀ x ∈ keys, compareThrows k x = false) :
    isValidApiKey keys k = .ok true := by
  induction keys with
  | nil => simp at hk
  | cons a rest ih =>
    have hna : compareThrows k a = false := hnt a (List.mem_cons_self a rest)
    cases hc : timingSafeCompare k a with
    | ok b =>
      cases b with
      | true => simp [isValidApiKey, hc]
      | false =>
        have hrest : k ∈ rest := by
          rcases List.mem_cons.mp hk with h1 | h1
          · subst h1
            rw [timingSafeCompare_self] at hc
            simp at hc
          · exact h1
        simp only [isValidApiKey, hc]
        exact ih hrest (fun x hx => hnt x (List.mem_cons_of_mem a hx))
    | thrown =>
      rw [timingSafeCompare_thrown_iff] at hc
      rw [hna] at hc
      simp at hc

lemma isValidApiKey_not_mem {keys : List String} {s : String} (hs : s ∉ keys)
    (hnt : ∀ x ∈ keys, compareThrows s x = false) :
    isValidApiKey keys s = .ok false := by
  induction keys with
  | nil => simp [isValidApiKey]
  | cons a rest ih =>
    have hna : compareThrows s a = false := hnt a (List.mem_cons_self a rest)
    cases hc : timingSafeCompare s a with
    | ok b =>
      cases b with
      | true =>
        exfalso
        apply hs
        rw [(timingSafeCompare_ok_true_iff s a).mp hc]
        exact List.mem_cons_self a rest
      | false =>
        simp only [isValidApiKey, hc]
        exact ih (fun h => hs (List.mem_cons_of_mem a h))
          (fun x hx => hnt x (List.mem_cons_of_mem a hx))
    | thrown =>
      rw [timingSafeCompare_thrown_iff] at hc
      rw [hna] at hc
      simp at hc

lemma apiKeyGuard_single_mem {keys : List String} {k : String}
    (hne : k ≠ "") (hk : k ∈ keys)
    (hnt : ∀ x ∈ keys, compareThrows k x = false) :
    apiKeyGuard keys (.single k) = .next := by
  simp [apiKeyGuard, hne, isValidApiKey_mem hk hnt]

lemma apiKeyGuard_single_not_mem {keys : List String} {k : String}
    (hne : k ≠ "") (hk : k ∉ keys)
    (hnt : ∀ x ∈ keys, compareThrows k x = false) :
    apiKeyGuard keys (.single k) = .reject 401 invalidKeyBody := by
  simp [apiKeyGuard, hne, isValidApiKey_not_mem hk hnt]

lemma apiKeyGuard_single_throws {keys : List String} {v : String}
    (hne : v ≠ "") (h : isValidApiKey keys v = .error ()) :
    apiKeyGuard keys (.single v) = .thrown := by
  simp [apiKeyGuard, hne, h]

/-! ## Claim C1 -/

/-- C1 counterexample: the claim as stated fails on non-ASCII values. With
keys configured as "ab", the non-empty mismatched value "éx" has the same JS
(UTF-16) length as "ab" but a different UTF-8 byte length, so
crypto.timingSafeEqual throws and the guard throws instead of answering 401
INVALID_API_KEY; and with keys "éé,ab", even the exact configured key "ab"
is not admitted, because the scan throws on the earlier key "éé". -/
theorem apiKeyGuard_key_equivalence_counterexample :
    ("éx" ≠ "" ∧ "éx" ∉ parseApiKeys "ab" ∧
      apiKeyGuard (parseApiKeys "ab") (.single "éx") ≠ .reject 401 invalidKeyBody ∧
      apiKeyGuard (parseApiKeys "ab") (.single "éx") = .thrown) ∧
    ("ab" ∈ parseApiKeys "éé,ab" ∧
      apiKeyGuard (parseApiKeys "éé,ab") (.single "ab") ≠ .next ∧
      apiKeyGuard (parseApiKeys "éé,ab") (.single "ab") = .thrown) := by
  decide

/-- C1 (amended): provided no configured key has the same JS (UTF-16) length
as the presented value with a different UTF-8 byte length (the condition
under which crypto.timingSafeEqual throws), a value equal to a configured
key is admitted and every non-empty mismatched value receives the one fixed
401 INVALID_API_KEY body; when the comparison does throw, the guard throws
and the terminal error handler turns the plain Error into 500
INTERNAL_ERROR instead of 401. -/
theorem apiKeyGuard_key_equivalence_amended (envVal K S v : String) :
    (K ∈ parseApiKeys envVal →
      (∀ k ∈ parseApiKeys envVal, compareThrows K k = false) →
      apiKeyGuard (parseApiKeys envVal) (.single K) = .next) ∧
    (S ≠ "" → S ∉ parseApiKeys envVal →
      (∀ k ∈ parseApiKeys envVal, compareThrows S k = false) →
      apiKeyGuard (parseApiKeys envVal) (.single S) = .reject 401 invalidKeyBody) ∧
    (v ≠ "" → isValidApiKey (parseApiKeys envVal) v = .error () →
      apiKeyGuard (parseApiKeys envVal) (.single v) = .thrown) ∧
    (∀ (isProd : Bool) (msg : String),
      errorHandler isProd (.other msg none) = (500, internalErrorBody isProd msg)) := by
  refine ⟨?_, ?_, ?_, fun isProd msg => rfl⟩
  · intro hK hnt
    exact apiKeyGuard_single_mem (parseApiKeys_mem_ne_empty hK) hK hnt
  · intro hne hS hnt
    exact apiKeyGuard_single_not_mem hne hS hnt
  · intro hne hv
    exact apiKeyGuard_single_throws hne hv

/-- Witness for C1 (amended), with keys configured as "k1,k2" (no throwing
pair): the exact key "k1" is admitted and the concatenation "k1k2" is
rejected with the fixed INVALID_API_KEY body; and with keys "ab" the value
"éx" makes the guard throw. -/
theorem apiKeyGuard_key_equivalence_amended_witness :
    apiKeyGuard (parseApiKeys "k1,k2") (.single "k1") = .next ∧
    apiKeyGuard (parseApiKeys "k1,k2") (.single "k1k2") = .reject 401 invalidKeyBody ∧
    apiKeyGuard (parseApiKeys "ab") (.single "éx") = .thrown :=
  ⟨(apiKeyGuard_key_equivalence_amended "k1,k2" "k1" "k1k2" "x").1
      (by decide) (by decide),
   (apiKeyGuard_key_equivalence_amended "k1,k2" "k1" "k1k2" "x").2.1
      (by decide) (by decide) (by decide),
   (apiKeyGuard_key_equivalence_amended "ab" "a" "b" "éx").2.2.1
      (by decide) rfl⟩

/-! ## Claim C2 -/

lemma jsTrim_eq_empty_of_all_ws {v : String} (h : ∀ c ∈ v.data, c.isWhitespace) :
    jsTrim v = "" := by
  have h1 : v.data.dropWhile Char.isWhitespace = [] :=
    List.dropWhile_eq_nil_iff.mpr h
  simp [jsTrim, jsTrimChars, h1]

/-- C2 counterexample: the clause "any non-empty mismatched value yields
INVALID_API_KEY" fails on non-ASCII values. With keys configured as "ab",
the non-empty, already-trimmed, mismatched header value "éx" (same JS length
as "ab", different UTF-8 byte length) makes crypto.timingSafeEqual throw, so
the request is answered through the error handler with 500, not 401
INVALID_API_KEY. -/
theorem apiKeyGuard_missing_classification_counterexample :
    jsTrim "éx" = "éx" ∧ "éx" ≠ "" ∧ "éx" ∉ parseApiKeys "ab" ∧
    apiKeyGuard (parseApiKeys "ab") (receivedHeader (.single "éx")) ≠
      .reject 401 invalidKeyBody ∧
    apiKeyGuard (parseApiKeys "ab") (receivedHeader (.single "éx")) = .thrown := by
  decide

/-- C2 (amended): through the guard, an absent header, a repeated (array)
header, an empty value and a whitespace-only value (which the HTTP layer
trims to the empty string before the guard runs) are all classified as
missing — HTTP 401 with the MISSING_API_KEY body — while a non-empty
mismatched value (already in trimmed form) is rejected with the
INVALID_API_KEY body provided no configured key shares its JS (UTF-16)
length with a different UTF-8 byte length; in that remaining case
crypto.timingSafeEqual throws and the guard throws instead. -/
theorem apiKeyGuard_missing_classification_amended (envVal v w : String) :
    apiKeyGuard (parseApiKeys envVal) (receivedHeader .absent) =
      .reject 401 missingKeyBody ∧
    (∀ vs, apiKeyGuard (parseApiKeys envVal) (receivedHeader (.multi vs)) =
      .reject 401 missingKeyBody) ∧
    apiKeyGuard (parseApiKeys envVal) (receivedHeader (.single "")) =
      .reject 401 missingKeyBody ∧
    ((∀ c ∈ v.data, c.isWhitespace) →
      apiKeyGuard (parseApiKeys envVal) (receivedHeader (.single v)) =
        .reject 401 missingKeyBody) ∧
    (jsTrim w = w → w ≠ "" → w ∉ parseApiKeys envVal →
      (∀ k ∈ parseApiKeys envVal, compareThrows w k = false) →
      apiKeyGuard (parseApiKeys envVal) (receivedHeader (.single w)) =
        .reject 401 invalidKeyBody) := by
  refine ⟨rfl, fun vs => rfl, ?_, ?_, ?_⟩
  · simp [receivedHeader, jsTrim, jsTrimChars, apiKeyGuard]
  · intro hws
    simp [receivedHeader, jsTrim_eq_empty_of_all_ws hws, apiKeyGuard]
  · intro htrim hne hmem hnt
    rw [receivedHeader, htrim]
    exact apiKeyGuard_single_not_mem hne hmem hnt

/-- Witness for C2 (amended) with keys configured as "k1": a whitespace-only
header is classified as missing, a non-empty mismatched header (no throwing
pair) as invalid. -/
theorem apiKeyGuard_missing_classification_amended_witness :
    apiKeyGuard (parseApiKeys "k1") (receivedHeader (.single " ")) =
      .reject 401 missingKeyBody ∧
    apiKeyGuard (parseApiKeys "k1") (receivedHeader (.single "zz")) =
      .reject 401 invalidKeyBody :=
  ⟨(apiKeyGuard_missing_classification_amended "k1" " " "zz").2.2.2.1 (by decide),
   (apiKeyGuard_missing_classification_amended "k1" " " "zz").2.2.2.2 (by decide)
     (by decide) (by decide) (by decide)⟩

/-! ## Claim C6 -/

/-- C6: every error that is neither an ApiError nor a JSON SyntaxError gets
HTTP 500 with code INTERNAL_ERROR; in production the message is the fixed
string "An internal error occurred" whatever the error was, outside
production it is the error message; and no error-handler response body, in
any environment and for any error class, contains a stack or trace field. -/
theorem errorHandler_internal_and_no_stack :
    (∀ (msg : String) (stack : Option String) (isProd : Bool),
      errorHandler isProd (.other msg stack) =
        (500, [("status", "error"), ("code", "INTERNAL_ERROR"),
               ("message", if isProd then "An internal error occurred" else msg)])) ∧
    (∀ (msg : String) (isProd : Bool),
      errorHandler isProd (.jsonSyntaxError msg false) =
        (500, [("status", "error"), ("code", "INTERNAL_ERROR"),
               ("message", if isProd then "An internal error occurred" else msg)])) ∧
    (∀ (err : GatewayError) (isProd : Bool),
      "stack" ∉ (errorHandler isProd err).2.map Prod.fst ∧
      "trace" ∉ (errorHandler isProd err).2.map Prod.fst) := by
  refine ⟨fun msg stack isProd => rfl, fun msg isProd => rfl, ?_⟩
  intro err isProd
  cases err with
  | apiError sc code msg => simp [errorHandler]
  | jsonSyntaxError msg hasBody =>
    cases hasBody <;> simp [errorHandler, internalErrorBody]
  | other msg stack => simp [errorHandler, internalErrorBody]

/-! ## Claim C9 -/

/-- C9: every ApiError is answered with its own statusCode, code and message
verbatim, in every environment — the production masking never applies to the
ApiError branch, including 5xx ApiErrors in production. -/
theorem errorHandler_apiError_verbatim :
    ∀ (sc : Nat) (code msg : String) (isProd : Bool),
      errorHandler isProd (.apiError sc code msg) =
        (sc, [("status", "error"), ("code", code), ("message", msg)]) :=
  fun _ _ _ _ => rfl

/-! ## Health aggregation (src/services/api-gateway/src/app.ts) -/

/-- Outcome of the probe `fetch` to one upstream: a response with its
`ok` flag and the measured latency, a network error, or a timeout (the abort
fires and `fetch` rejects); the last two are caught by the same catch. -/
inductive ProbeOutcome where
  | response (ok : Bool) (latencyMs : Nat)
  | netError (latencyMs : Nat)
  | timedOut (latencyMs : Nat)
deriving DecidableEq, Repr

/-- One upstream health record as built by `checkServiceHealth`. -/
structure ServiceHealth where
  name : String
  status : String
  latencyMs : Nat
deriving DecidableEq, Repr

/-- Embedding of `checkServiceHealth`: `response.ok` means healthy; a
non-success status, a network error or a timeout all yield an unhealthy
record; the function always resolves to a record, never throws. -/
def checkServiceHealth (name : String) (o : ProbeOutcome) : ServiceHealth :=
  match o with
  | .response true l => ⟨name, "healthy", l⟩
  | .response false l => ⟨name, "unhealthy", l⟩
  | .netError l => ⟨name, "unhealthy", l⟩
  | .timedOut l => ⟨name, "unhealthy", l⟩

/-- The body of GET /api/v1/services/status. -/
structure StatusResponse where
  status : String
  gatewayStatus : String
  fwAnalysis : ServiceHealth
  backpro : ServiceHealth
deriving DecidableEq, Repr

/-- Embedding of the /api/v1/services/status handler: both upstreams are
probed, `allHealthy` is the conjunction of the two verdicts, the overall
status is "healthy" or "degraded" accordingly, and the gateway reports its
own status as "healthy" unconditionally. -/
def servicesStatusHandler (fwOutcome backproOutcome : ProbeOutcome) : StatusResponse :=
  let fwAnalysis := checkServiceHealth "fw-analysis" fwOutcome
  let backpro := checkServiceHealth "backpro" backproOutcome
  { status :=
      if fwAnalysis.status = "healthy" ∧ backpro.status = "healthy"
      then "healthy" else "degraded"
    gatewayStatus := "healthy"
    fwAnalysis := fwAnalysis
    backpro := backpro }

/-! ## Claim C4 -/

/-- C4: the aggregated status is "healthy" exactly when both upstream records
are healthy and "degraded" otherwise; the gateway field is always "healthy";
each record is computed independently from its own probe outcome (so one
upstream failing never changes the other record or the request), and a
network error, non-success status or timeout each produce an unhealthy
record rather than a failure. -/
theorem servicesStatus_aggregation (o1 o2 : ProbeOutcome) :
    ((servicesStatusHandler o1 o2).status = "healthy" ↔
      (checkServiceHealth "fw-analysis" o1).status = "healthy" ∧
      (checkServiceHealth "backpro" o2).status = "healthy") ∧
    ((servicesStatusHandler o1 o2).status = "healthy" ∨
      (servicesStatusHandler o1 o2).status = "degraded") ∧
    (servicesStatusHandler o1 o2).gatewayStatus = "healthy" ∧
    (servicesStatusHandler o1 o2).fwAnalysis = checkServiceHealth "fw-analysis" o1 ∧
    (servicesStatusHandler o1 o2).backpro = checkServiceHealth "backpro" o2 ∧
    (∀ (name : String) (l : Nat),
      checkServiceHealth name (.netError l) = ⟨name, "unhealthy", l⟩ ∧
      checkServiceHealth name (.timedOut l) = ⟨name, "unhealthy", l⟩ ∧
      checkServiceHealth name (.response false l) = ⟨name, "unhealthy", l⟩) := by
  by_cases h : (checkServiceHealth "fw-analysis" o1).status = "healthy" ∧
      (checkServiceHealth "backpro" o2).status = "healthy" <;>
    refine ⟨?_, ?_, rfl, rfl, rfl, fun name l => ⟨rfl, rfl, rfl⟩⟩ <;>
      simp [servicesStatusHandler, h]

/-! ## fw-analysis health route (src/services/api-gateway/src/routes/fwAnalysis.ts) -/

/-- Outcome of the route body: either the upstream fetch and JSON parse
succeed (yielding the upstream body, kept opaque), or some step throws and
the catch receives an error whose `String(error)` rendering is given. -/
inductive FwFetchOutcome where
  | success (upstreamBody : String)
  | thrown (errorText : String)
deriving DecidableEq, Repr

/-- Embedding of the fw-analysis /health handler: on success it relays the
upstream data with status ok; on any thrown error it answers HTTP 502 with
`message: String(error)` — the raw rendered exception text. -/
def fwAnalysisHealthHandler (o : FwFetchOutcome) : Nat × List (String × String) :=
  match o with
  | .success d =>
    (200, [("status", "ok"), ("service", "fw-analysis"), ("data", d)])
  | .thrown e =>
    (502, [("status", "error"), ("service", "fw-analysis"), ("message", e)])

/-! ## Claim C5 -/

/-- C5 (violated): when the fw-analysis upstream probe throws, the 502
response body from the fw-analysis /health route carries the raw rendered
exception text verbatim in its message field — not a generic fixed
description; evaluated here at the rendering Node produces for an
unreachable upstream. -/
theorem fwAnalysisHealth_leaks_exception :
    fwAnalysisHealthHandler (.thrown "TypeError: fetch failed") =
      (502, [("status", "error"), ("service", "fw-analysis"),
             ("message", "TypeError: fetch failed")]) ∧
    fwAnalysisHealthHandler (.thrown "Error: connect ECONNREFUSED 127.0.0.1:5050") =
      (502, [("status", "error"), ("service", "fw-analysis"),
             ("message", "Error: connect ECONNREFUSED 127.0.0.1:5050")]) :=
  ⟨rfl, rfl⟩

/-! ## Rate limiter (globalRateLimiter, src/unnamed/part_012) -/

/-- The request data the limiter inspects. -/
structure LimiterRequest where
  path : String
  xForwardedFor : Option String
  ip : Option String
deriving DecidableEq, Repr

/-- Embedding of the configured `keyGenerator`: first entry of the
x-forwarded-for chain, trimmed; else `req.ip`; else "unknown". -/
def keyGenerator (req : LimiterRequest) : String :=
  match req.xForwardedFor with
  | some forwarded => jsTrim (String.mk (((splitOnComma forwarded.data).headD [])))
  | none => req.ip.getD "unknown"

inductive LimitDecision where
  | allow
  | reject429
deriving DecidableEq, Repr

/-- Modelled from the spec: the fixed-window check-and-increment of the
express-rate-limit library (the library itself is not part of this
repository), configured exactly as `globalRateLimiter` does — the request is
skipped (not counted, not blocked) when its path is /api/v1/health, and
otherwise the counter of the derived client key is incremented and the
request is rejected with 429 once the count exceeds the configured limit. -/
def rateLimitStep (limit : Nat) (counts : String → Nat) (req : LimiterRequest) :
    LimitDecision × (String → Nat) :=
  if req.path = "/api/v1/health" then (.allow, counts)
  else
    let key := keyGenerator req
    let c := counts key + 1
    ((if c > limit then .reject429 else .allow),
      fun k => if k = key then c else counts k)

/-- The decisions the limiter takes on a sequence of requests within one
window, threading the counter table. -/
def rateLimitRun (limit : Nat) (counts : String → Nat) :
    List LimiterRequest → List LimitDecision
  | [] => []
  | r :: rs =>
    let step := rateLimitStep limit counts r
    step.1 :: rateLimitRun limit step.2 rs

lemma rateLimitRun_health_allow (limit : Nat) :
    ∀ (reqs : List LimiterRequest) (counts : String → Nat) (i : Nat)
      (r : LimiterRequest), reqs.get? i = some r → r.path = "/api/v1/health" →
      (rateLimitRun limit counts reqs).get? i = some .allow := by
  intro reqs
  induction reqs with
  | nil => intro counts i r hr; simp at hr
  | cons q qs ih =>
    intro counts i r hr hp
    cases i with
    | zero =>
      rw [List.get?_cons_zero] at hr
      cases hr
      simp [rateLimitRun, rateLimitStep, hp]
    | succ n =>
      rw [List.get?_cons_succ] at hr
      rw [rateLimitRun, List.get?_cons_succ]
      exact ih _ n r hr hp

/-! ## Claim C8 -/

/-- C8: a request to /api/v1/health is always admitted and leaves every
client counter untouched — in any counter state, so an unbounded sequence of
such requests never sees a 429, even after the same client key exhausted its
budget on other paths; any request to another path increments its client
key's counter (is counted against the fixed-window budget). -/
theorem rateLimiter_health_exempt :
    (∀ (limit : Nat) (counts : String → Nat) (req : LimiterRequest),
      req.path = "/api/v1/health" → rateLimitStep limit counts req = (.allow, counts)) ∧
    (∀ (limit : Nat) (counts : String → Nat) (reqs : List LimiterRequest)
      (i : Nat) (r : LimiterRequest), reqs.get? i = some r →
      r.path = "/api/v1/health" →
      (rateLimitRun limit counts reqs).get? i = some .allow) ∧
    (∀ (limit : Nat) (counts : String → Nat) (req : LimiterRequest),
      req.path ≠ "/api/v1/health" →
      (rateLimitStep limit counts req).2 (keyGenerator req) =
        counts (keyGenerator req) + 1) := by
  refine ⟨?_, ?_, ?_⟩
  · intro limit counts req hp
    simp [rateLimitStep, hp]
  · intro limit counts reqs i r hr hp
    exact rateLimitRun_health_allow limit reqs counts i r hr hp
  · intro limit counts req hp
    simp [rateLimitStep, hp]

/-- Witness for C8: with limit 1 and a client counter already at 5
(exhausted), the health path is still allowed, and a request to
/api/v1/services/status increments the client counter. -/
theorem rateLimiter_health_exempt_witness :
    (rateLimitRun 1 (fun _ => 5)
      [⟨"/api/v1/health", none, some "9.9.9.9"⟩]).get? 0 = some .allow ∧
    (rateLimitStep 1 (fun _ => 5)
        ⟨"/api/v1/services/status", none, some "9.9.9.9"⟩).2
      (keyGenerator ⟨"/api/v1/services/status", none, some "9.9.9.9"⟩) =
      (fun _ => 5) (keyGenerator ⟨"/api/v1/services/status", none, some "9.9.9.9"⟩) + 1 :=
  ⟨rateLimiter_health_exempt.2.1 1 (fun _ => 5)
      [⟨"/api/v1/health", none, some "9.9.9.9"⟩] 0
      ⟨"/api/v1/health", none, some "9.9.9.9"⟩ (by decide) (by decide),
   rateLimiter_health_exempt.2.2 1 (fun _ => 5)
      ⟨"/api/v1/services/status", none, some "9.9.9.9"⟩ (by decide)⟩

/-! ## Configuration loading (src/services/api-gateway/src/config.ts) -/

/-- One zod validation issue: the offending field path and the reason. -/
structure Issue where
  path : String
  message : String
deriving DecidableEq, Repr

/-- Issues carried by a failed field parse, empty for a success. -/
def issuesOf {α : Type} : Except (List Issue) α → List Issue
  | .ok _ => []
  | .error e => e

/-- Embedding of the regex check `^\d+$`. -/
def isDigits (s : String) : Bool :=
  decide (0 < s.length) && s.data.all Char.isDigit

/-- Embedding of `Number(s)` for strings of decimal digits. -/
def digitsToNat (l : List Char) : Nat :=
  l.foldl (fun acc c => acc * 10 + (c.toNat - 48)) 0

/-- Embedding of the PORT schema: digits, numeric, between 1 and 65535,
defaulting to "8787" when absent. -/
def portFromEnv (o : Option String) : Except (List Issue) Nat :=
  let s := o.getD "8787"
  if isDigits s then
    let n := digitsToNat s.data
    if 1 ≤ n ∧ n ≤ 65535 then .ok n
    else .error [⟨"PORT", "Number out of range"⟩]
  else .error [⟨"PORT", "Invalid input: expected digits"⟩]

/-- Embedding of the numeric schemas with a lower bound only
(RATE_LIMIT_WINDOW_MS min 1000, RATE_LIMIT_MAX_REQUESTS min 1,
SHUTDOWN_TIMEOUT_MS min 1000), each with its string default. -/
def minNumFromEnv (pathName defaultVal : String) (minVal : Nat) (o : Option String) :
    Except (List Issue) Nat :=
  let s := o.getD defaultVal
  if isDigits s then
    let n := digitsToNat s.data
    if minVal ≤ n then .ok n
    else .error [⟨pathName, "Number below the allowed minimum"⟩]
  else .error [⟨pathName, "Invalid input: expected digits"⟩]

/-- Embedding of the NODE_ENV enum schema with default "development". -/
def nodeEnvFromEnv (o : Option String) : Except (List Issue) String :=
  let s := o.getD "development"
  if s = "development" ∨ s = "production" ∨ s = "test" then .ok s
  else .error [⟨"NODE_ENV", "Invalid enum value"⟩]

/-- Modelled from the spec: zod's `z.string().url()` (the zod library is not
part of this repository) combined with the source refine requiring an
http:// or https:// scheme; approximated as the scheme prefix followed by a
non-empty remainder. -/
def validUrl (s : String) : Bool :=
  ("http://".data.isPrefixOf s.data && decide (7 < s.length)) ||
  ("https://".data.isPrefixOf s.data && decide (8 < s.length))

/-- Embedding of the upstream URL fields: required in production (absence is
a violation), defaulted to the given localhost URL in development. -/
def urlFromEnv (isProd : Bool) (pathName defaultVal : String) (o : Option String) :
    Except (List Issue) String :=
  match o with
  | none =>
    if isProd then .error [⟨pathName, "Required"⟩] else .ok defaultVal
  | some s =>
    if validUrl s then .ok s else .error [⟨pathName, "Invalid url"⟩]

/-- The refinement issues of `apiKeysSchema`: at least one key after
parsing, and no "dev" key when in production. -/
def apiKeysIssues (isProd : Bool) (keys : List String) : List Issue :=
  (if 0 < keys.length then []
   else [⟨"FW_ADMIN_API_KEYS", "At least one API key must be configured"⟩]) ++
  (if isProd && keys.contains "dev" then
    [⟨"FW_ADMIN_API_KEYS", "Default dev API key is not allowed in production"⟩]
   else [])

/-- Embedding of the FW_ADMIN_API_KEYS field: required in production,
defaulted to "dev" in development, then parsed and refined. -/
def apiKeysFromEnv (isProd : Bool) (o : Option String) :
    Except (List Issue) (List String) :=
  match (if isProd then o else some (o.getD "dev")) with
  | none => .error [⟨"FW_ADMIN_API_KEYS", "Required"⟩]
  | some s =>
    let keys := parseApiKeys s
    if apiKeysIssues isProd keys = [] then .ok keys
    else .error (apiKeysIssues isProd keys)

/-- The development CORS fallback origins. -/
def devCorsDefaults : List String :=
  ["http://localhost:3000", "http://localhost:3001", "http://localhost:5173"]

/-- Embedding of `corsOriginsSchema`: an absent or empty (JS-falsy) value
yields the empty list in production and the localhost defaults otherwise; a
non-empty value is split on commas, trimmed and cleaned. It never fails. -/
def corsOriginsSchema (isProd : Bool) (o : Option String) : List String :=
  match o with
  | none => if isProd then [] else devCorsDefaults
  | some v =>
    if v = "" then (if isProd then [] else devCorsDefaults)
    else ((splitOnComma v.data).map (fun p => String.mk (jsTrimChars p))).filter
      (fun k => decide (0 < k.length))

/-- Embedding of the regex `^\d+(kb|mb|gb)?$` (case-insensitive). -/
def validBodyLimit (s : String) : Bool :=
  let ds := s.data.takeWhile Char.isDigit
  let rest := (s.data.drop ds.length).map Char.toLower
  decide (0 < ds.length) &&
    (rest == [] || rest == ['k', 'b'] || rest == ['m', 'b'] || rest == ['g', 'b'])

/-- Embedding of the BODY_SIZE_LIMIT field with default "1mb". -/
def bodyLimitFromEnv (o : Option String) : Except (List Issue) String :=
  let s := o.getD "1mb"
  if validBodyLimit s then .ok s
  else .error [⟨"BODY_SIZE_LIMIT", "Invalid size"⟩]

/-- The relevant gateway process environment (all values optional strings). -/
structure Env where
  PORT : Option String := none
  NODE_ENV : Option String := none
  FW_ANALYSIS_SERVICE_URL : Option String := none
  BACKPRO_SERVICE_URL : Option String := none
  FW_ADMIN_API_KEYS : Option String := none
  CORS_ALLOWED_ORIGINS : Option String := none
  RATE_LIMIT_WINDOW_MS : Option String := none
  RATE_LIMIT_MAX_REQUESTS : Option String := none
  BODY_SIZE_LIMIT : Option String := none
  SHUTDOWN_TIMEOUT_MS : Option String := none
deriving DecidableEq, Repr

/-- The configuration object `loadConfig` returns. -/
structure Config where
  port : Nat
  isProduction : Bool
  fwAnalysisUrl : String
  backproUrl : String
  apiKeys : List String
  corsOrigins : List String
  rateLimitWindowMs : Nat
  rateLimitMaxRequests : Nat
  bodyLimit : String
  shutdownTimeoutMs : Nat
deriving DecidableEq, Repr

/-- Embedding of `envSchema.safeParse`: every field is validated, and either
a full Config is produced or the list of all violations (field path and
reason each) in schema field order. -/
def parseEnv (isProd : Bool) (env : Env) : Except (List Issue) Config :=
  let port := portFromEnv env.PORT
  let nodeEnv := nodeEnvFromEnv env.NODE_ENV
  let fwUrl := urlFromEnv isProd "FW_ANALYSIS_SERVICE_URL" "http://localhost:5050"
    env.FW_ANALYSIS_SERVICE_URL
  let bpUrl := urlFromEnv isProd "BACKPRO_SERVICE_URL" "http://localhost:8000"
    env.BACKPRO_SERVICE_URL
  let keys := apiKeysFromEnv isProd env.FW_ADMIN_API_KEYS
  let win := minNumFromEnv "RATE_LIMIT_WINDOW_MS" "60000" 1000 env.RATE_LIMIT_WINDOW_MS
  let maxReq := minNumFromEnv "RATE_LIMIT_MAX_REQUESTS" "100" 1 env.RATE_LIMIT_MAX_REQUESTS
  let bl := bodyLimitFromEnv env.BODY_SIZE_LIMIT
  let shut := minNumFromEnv "SHUTDOWN_TIMEOUT_MS" "10000" 1000 env.SHUTDOWN_TIMEOUT_MS
  match port, nodeEnv, fwUrl, bpUrl, keys, win, maxReq, bl, shut with
  | .ok p, .ok _, .ok f, .ok b, .ok k, .ok w, .ok m, .ok l, .ok s =>
    .ok ⟨p, isProd, f, b, k, corsOriginsSchema isProd env.CORS_ALLOWED_ORIGINS, w, m, l, s⟩
  | a1, a2, a3, a4, a5, a6, a7, a8, a9 =>
    .error (issuesOf a1 ++ issuesOf a2 ++ issuesOf a3 ++ issuesOf a4 ++
      issuesOf a5 ++ issuesOf a6 ++ issuesOf a7 ++ issuesOf a8 ++ issuesOf a9)

/-- What running `loadConfig` can do to the process: return a configuration,
log every violation and exit with status 1 (production), or raise an uncaught
ZodError from the fallback `envSchema.parse` (development). -/
inductive LoadOutcome where
  | success (cfg : Config)
  | exitOne (logged : List Issue)
  | thrown (issues : List Issue)
deriving DecidableEq, Repr

/-- Embedding of the development fallback environment: the three
production-required variables are null-coalesced with their dev defaults
(only replacing absent values — present invalid values are kept). -/
def retryEnv (env : Env) : Env :=
  { env with
    FW_ANALYSIS_SERVICE_URL := some (env.FW_ANALYSIS_SERVICE_URL.getD "http://localhost:5050")
    BACKPRO_SERVICE_URL := some (env.BACKPRO_SERVICE_URL.getD "http://localhost:8000")
    FW_ADMIN_API_KEYS := some (env.FW_ADMIN_API_KEYS.getD "dev") }

/-- Embedding of `loadConfig`: on safeParse failure, production logs every
issue and exits with a non-zero status; development logs a warning and
re-parses the fallback environment with the throwing `parse`, whose failure
escapes as an uncaught exception. -/
def loadConfig (isProd : Bool) (env : Env) : LoadOutcome :=
  match parseEnv isProd env with
  | .ok cfg => .success cfg
  | .error issues =>
    if isProd then .exitOne issues
    else
      match parseEnv isProd (retryEnv env) with
      | .ok cfg => .success cfg
      | .error issues2 => .thrown issues2

/-- The cors() origin option as createApp computes it
(src/services/api-gateway/src/app.ts): a non-empty configured list is passed
through, an empty list becomes `true` — reflect any origin. -/
inductive CorsOriginSetting where
  | explicitList (origins : List String)
  | permissive
deriving DecidableEq, Repr

/-- Embedding of `config.cors.origins.length > 0 ? config.cors.origins : true`. -/
def corsOriginSetting (origins : List String) : CorsOriginSetting :=
  if 0 < origins.length then .explicitList origins else .permissive

/-! ## Claim C3 -/

/-- C3 (violated): a production environment with valid upstream URLs and
keys but no CORS_ALLOWED_ORIGINS passes configuration validation — the
schema silently yields an empty origins list instead of requiring explicit
origins — and createApp then turns the empty list into the permissive cors
origin setting (reflect any origin), so the server does run with a
permissive CORS policy in production. -/
theorem prodConfig_cors_permissive :
    loadConfig true
      { NODE_ENV := some "production",
        FW_ANALYSIS_SERVICE_URL := some "https://fw.example.com",
        BACKPRO_SERVICE_URL := some "https://bp.example.com",
        FW_ADMIN_API_KEYS := some "prodkey1" } =
      .success ⟨8787, true, "https://fw.example.com", "https://bp.example.com",
        ["prodkey1"], [], 60000, 100, "1mb", 10000⟩ ∧
    corsOriginSetting [] = .permissive := by
  exact ⟨by decide, by decide⟩

/-! ## Claim C7 -/

/-- C7 (production half holds, development half violated): with an invalid
environment (rate-limit window 500ms, below the 1000ms minimum) production
mode logs every violation with its field path and reason and exits with a
non-zero status, but development mode — after logging its warning — re-runs
the throwing parse on the same invalid value (the dev fallbacks only replace
absent variables), so the process dies with an uncaught ZodError instead of
continuing with safe defaults. -/
theorem loadConfig_failure_modes :
    loadConfig true { RATE_LIMIT_WINDOW_MS := some "500" } =
      .exitOne [⟨"FW_ANALYSIS_SERVICE_URL", "Required"⟩,
        ⟨"BACKPRO_SERVICE_URL", "Required"⟩,
        ⟨"FW_ADMIN_API_KEYS", "Required"⟩,
        ⟨"RATE_LIMIT_WINDOW_MS", "Number below the allowed minimum"⟩] ∧
    loadConfig false { RATE_LIMIT_WINDOW_MS := some "500" } =
      .thrown [⟨"RATE_LIMIT_WINDOW_MS", "Number below the allowed minimum"⟩] := by
  exact ⟨by decide, by decide⟩

/-! ## Claim C10 -/

lemma head?_dropWhile_not_ws {l : List Char} {c : Char}
    (h : (l.dropWhile Char.isWhitespace).head? = some c) : c.isWhitespace = false := by
  induction l with
  | nil => simp [List.dropWhile] at h
  | cons a t ih =>
    rw [List.dropWhile_cons] at h
    by_cases ha : a.isWhitespace = true
    · rw [if_pos ha] at h
      exact ih h
    · rw [if_neg ha] at h
      simp at h
      rw [← h]
      rw [Bool.not_eq_true] at ha
      exact ha

lemma jsTrimChars_eq (l : List Char) :
    jsTrimChars l =
      (l.dropWhile Char.isWhitespace).rdropWhile Char.isWhitespace := rfl

lemma jsTrimChars_head_not_ws {l : List Char} {c : Char}
    (h : (jsTrimChars l).head? = some c) : c.isWhitespace = false := by
  rw [jsTrimChars_eq] at h
  obtain ⟨t, ht⟩ :=
    List.rdropWhile_prefix Char.isWhitespace (l.dropWhile Char.isWhitespace)
  rcases hq : (l.dropWhile Char.isWhitespace).rdropWhile Char.isWhitespace with
    _ | ⟨a, q⟩
  · rw [hq] at h
    simp at h
  · rw [hq] at h ht
    simp at h
    apply head?_dropWhile_not_ws (l := l)
    rw [← ht]
    simp [h]

lemma jsTrimChars_getLast_not_ws {l : List Char} {c : Char}
    (h : (jsTrimChars l).getLast? = some c) : c.isWhitespace = false := by
  rw [jsTrimChars_eq] at h
  have hne : (l.dropWhile Char.isWhitespace).rdropWhile Char.isWhitespace ≠ [] := by
    intro h0
    rw [h0] at h
    simp at h
  have hlast :=
    List.rdropWhile_last_not Char.isWhitespace (l.dropWhile Char.isWhitespace) hne
  rw [List.getLast?_eq_getLast_of_ne_nil hne] at h
  have hc := Option.some_inj.mp h
  rw [hc] at hlast
  rw [Bool.not_eq_true] at hlast
  exact hlast

lemma jsTrimChars_eq_nil_of_all_ws {l : List Char} (h : ∀ c ∈ l, c.isWhitespace) :
    jsTrimChars l = [] := by
  have h1 : l.dropWhile Char.isWhitespace = [] := List.dropWhile_eq_nil_iff.mpr h
  simp [jsTrimChars, h1]

lemma splitOnComma_subset :
    ∀ (l p : List Char), p ∈ splitOnComma l → ∀ c ∈ p, c ∈ l := by
  intro l
  induction l with
  | nil =>
    intro p hp c hc
    simp [splitOnComma] at hp
    subst hp
    simp at hc
  | cons a t ih =>
    intro p hp c hc
    simp only [splitOnComma] at hp
    split at hp
    · rcases List.mem_cons.mp hp with h1 | h1
      · subst h1
        simp at hc
      · exact List.mem_cons_of_mem a (ih p h1 c hc)
    · split at hp
      · simp at hp
        subst hp
        simp at hc
        rw [hc]
        exact List.mem_cons_self a t
      · rename_i q qs heq
        rcases List.mem_cons.mp hp with h1 | h1
        · subst h1
          rcases List.mem_cons.mp hc with h2 | h2
          · subst h2
            exact List.mem_cons_self c t
          · have hq : q ∈ splitOnComma t := by
              rw [heq]
              exact List.mem_cons_self q qs
            exact List.mem_cons_of_mem a (ih q hq c h2)
        · have hps : p ∈ splitOnComma t := by
            rw [heq]
            exact List.mem_cons_of_mem q h1
          exact List.mem_cons_of_mem a (ih p hps c hc)

lemma splitOnComma_no_comma :
    ∀ (l p : List Char), p ∈ splitOnComma l → ',' ∉ p := by
  intro l
  induction l with
  | nil =>
    intro p hp
    simp [splitOnComma] at hp
    subst hp
    simp
  | cons a t ih =>
    intro p hp
    simp only [splitOnComma] at hp
    split at hp
    · rcases List.mem_cons.mp hp with h1 | h1
      · subst h1
        simp
      · exact ih p h1
    · rename_i hA
      split at hp
      · simp at hp
        subst hp
        intro hcm
        simp at hcm
        exact hA hcm.symm
      · rename_i q qs heq
        rcases List.mem_cons.mp hp with h1 | h1
        · subst h1
          intro hcm
          rcases List.mem_cons.mp hcm with h2 | h2
          · exact hA h2.symm
          · have hq : q ∈ splitOnComma t := by
              rw [heq]
              exact List.mem_cons_self q qs
            exact ih q hq h2
        · have hps : p ∈ splitOnComma t := by
            rw [heq]
            exact List.mem_cons_of_mem q h1
          exact ih p hps

/-- C10: every configured API key produced by the env-value parse is a
non-empty string whose first and last characters are not whitespace (the
entries are trimmed and empties dropped); the example value " k1 , ,k2 "
parses to exactly ["k1", "k2"]; and a value made only of commas and spaces
parses to no keys at all and is rejected by the at-least-one-key
validation. -/
theorem apiKeys_parsing_shape (s k : String) :
    (k ∈ parseApiKeys s →
      k ≠ "" ∧
      (∀ c, k.data.head? = some c → c.isWhitespace = false) ∧
      (∀ c, k.data.getLast? = some c → c.isWhitespace = false)) ∧
    parseApiKeys " k1 , ,k2 " = ["k1", "k2"] ∧
    ((∀ c ∈ s.data, c = ',' ∨ c = ' ') →
      parseApiKeys s = [] ∧
      (∀ isProd : Bool, apiKeysFromEnv isProd (some s) =
        .error [⟨"FW_ADMIN_API_KEYS", "At least one API key must be configured"⟩])) := by
  refine ⟨?_, by decide, ?_⟩
  · intro h
    refine ⟨parseApiKeys_mem_ne_empty h, ?_, ?_⟩ <;>
      · obtain ⟨p, hp, hk⟩ := List.mem_map.mp (List.mem_filter.mp h).1
        intro c hc
        rw [← hk] at hc
        first
          | exact jsTrimChars_head_not_ws hc
          | exact jsTrimChars_getLast_not_ws hc
  · intro hws
    have hnil : parseApiKeys s = [] := by
      unfold parseApiKeys
      apply List.filter_eq_nil_iff.mpr
      intro k0 hk0
      obtain ⟨p, hp, hkp⟩ := List.mem_map.mp hk0
      have hall : ∀ c ∈ p, c.isWhitespace := by
        intro c hc
        rcases hws c (splitOnComma_subset s.data p hp c hc) with h1 | h1
        · exact absurd (h1 ▸ hc) (splitOnComma_no_comma s.data p hp)
        · rw [h1]; decide
      rw [← hkp]
      simp [jsTrimChars_eq_nil_of_all_ws hall]
    refine ⟨hnil, fun isProd => ?_⟩
    cases isProd <;> simp [apiKeysFromEnv, hnil, apiKeysIssues]

/-- Witness for C10: with the env value " k1 , ,k2 " the key "k1" is
non-empty and trimmed at both ends, and the comma-and-space value " , "
yields no keys and fails the at-least-one-key validation. -/
theorem apiKeys_parsing_shape_witness :
    ("k1" ≠ "" ∧
      (∀ c, "k1".data.head? = some c → c.isWhitespace = false) ∧
      (∀ c, "k1".data.getLast? = some c → c.isWhitespace = false)) ∧
    (parseApiKeys " , " = [] ∧
      (∀ isProd : Bool, apiKeysFromEnv isProd (some " , ") =
        .error [⟨"FW_ADMIN_API_KEYS", "At least one API key must be configured"⟩])) :=
  ⟨(apiKeys_parsing_shape " k1 , ,k2 " "k1").1 (by decide),
   (apiKeys_parsing_shape " , " "k1").2.2 (by decide)⟩

end FwGateway
